import Mathlib

/-!
SLA classification and gauge aggregation of the jira-prometheus-exporter.

A shallow embedding of `main.go` and `pkg/jira/jira.go`.

* Instants (`time.Time`) are integers counting nanoseconds; `time.Duration`
  is an integer number of nanoseconds as in Go.
* A `prometheus.GaugeVec` is an association list from label values to the
  gauge value. The gauges are only ever reset and incremented by one, so
  the `float64` value is a small natural number and is kept as a `Nat`.
* Reads of the outside world (`time.Now()`, `os.Getenv`, the remote search)
  are explicit arguments; calls with an outside effect (logging, `os.Exit`,
  registering collectors, opening the listener) are recorded as events.
-/

namespace JiraExporter

/-! ## Time -/

/-- An instant, in nanoseconds since the epoch. -/
abbrev Time := Int

/-- Go `time.Duration`: a signed count of nanoseconds. -/
abbrev Duration := Int

/-- Go `time.Hour`. -/
def Hour : Duration := 3600 * 1000000000

/-- Go `Time.Add`: returns the instant `t + d`; the receiver is a value and is
not modified. -/
def Time.Add (t : Time) (d : Duration) : Time := t + d

/-- Go `Time.Before`: `t` is strictly earlier than `u`. -/
def Time.Before (t u : Time) : Bool := decide (t < u)

/-! ## pkg/jira: the issue record -/

/-- The `jira.Issue` struct. -/
structure Issue where
  Status : String
  Priority : String
  LastUpdatedTime : Time
  deriving DecidableEq, Repr

/-! ## main.go: isBreachingSLA -/

/-- The function `isBreachingSLA`. The argument `timeNow` is the value that the
call `time.Now()` returns. Each case of the `switch` is an expression
statement `timeForSLABreach.Add(...)`: it computes a new instant, nothing
is assigned, and `timeForSLABreach` keeps the value it was initialised with. -/
def isBreachingSLA (issue : Issue) (timeNow : Time) : Bool :=
  if issue.Status ≠ "in_progress" ∧ issue.Status ≠ "new" then
    false
  else
    let timeForSLABreach : Time := timeNow
    let _ : Option Time :=
      if issue.Priority = "urgent" ∨ issue.Priority = "high" then
        some (Time.Add timeForSLABreach (-4 * Hour))
      else if issue.Priority = "medium" then
        some (Time.Add timeForSLABreach (-24 * Hour))
      else if issue.Priority = "low" then
        some (Time.Add timeForSLABreach (-72 * Hour))
      else
        none
    Time.Before issue.LastUpdatedTime timeForSLABreach

/-! ## prometheus.GaugeVec -/

/-- The label values of one child of a vector, in the order in which the
vector declares its labels. -/
abbrev LabelValues := List String

/-- A `prometheus.GaugeVec`: its children, each with the label values that
identify it and its current value, in order of creation. -/
structure GaugeVec where
  metrics : List (LabelValues × Nat)
  deriving DecidableEq, Repr

/-- Go `GaugeVec.Reset`: deletes every child. -/
def GaugeVec.Reset (_g : GaugeVec) : GaugeVec := ⟨[]⟩

/-- The value of the first child stored under `lvs`, if there is one. -/
def findChild (lvs : LabelValues) : List (LabelValues × Nat) → Option Nat
  | [] => none
  | e :: rest => if e.1 = lvs then some e.2 else findChild lvs rest

/-- Go `GaugeVec.With`: selects the child with these label values and creates
it with value 0 when the vector has none. -/
def GaugeVec.With (g : GaugeVec) (lvs : LabelValues) : GaugeVec :=
  if (findChild lvs g.metrics).isSome then g else ⟨g.metrics ++ [(lvs, 0)]⟩

/-- Adds one to the first child stored under `lvs`. -/
def incChild (lvs : LabelValues) : List (LabelValues × Nat) → List (LabelValues × Nat)
  | [] => []
  | e :: rest =>
    if e.1 = lvs then (e.1, e.2 + 1) :: rest else e :: incChild lvs rest

/-- Go `Gauge.Inc` on the child selected by `lvs`. -/
def GaugeVec.Inc (g : GaugeVec) (lvs : LabelValues) : GaugeVec :=
  ⟨incChild lvs g.metrics⟩

/-- The value a scrape reads for the child `lvs`; `none` when the vector has no
such child. -/
def GaugeVec.get (g : GaugeVec) (lvs : LabelValues) : Option Nat :=
  findChild lvs g.metrics

/-- The sum of the values of the children whose label values satisfy `keep`. -/
def GaugeVec.total (keep : LabelValues → Bool) (g : GaugeVec) : Nat :=
  ((g.metrics.filter (fun e => keep e.1)).map (fun e => e.2)).sum

/-- Label values of the form `[p, s]` for some status `s`. -/
def hasPriority (p : String) : LabelValues → Bool
  | [q, _] => decide (q = p)
  | _ => false

/-! ## Process state and outside effects -/

/-- A call with an effect outside the two gauge vectors. -/
inductive Event where
  | logDebug (msg : String)
  | logError (msg : String)
  | println (msg : String)
  | setDefaultLogger (level : Int)
  | mustRegister (name : String)
  | goroutine
  | httpHandle (pattern : String)
  | listenAndServe (addr : String)
  deriving DecidableEq, Repr

/-- How the process stopped: `os.Exit(code)` or an unrecovered `panic`. -/
inductive Halt where
  | exit (code : Nat)
  | panicked (msg : String)
  deriving DecidableEq, Repr

/-- The package-level variables `issueGauge` and `breachingSLAGauge`, and the
outside effects so far, oldest first. -/
structure Exporter where
  issueGauge : GaugeVec
  breachingSLAGauge : GaugeVec
  events : List Event
  deriving DecidableEq, Repr

/-- Records one outside effect. -/
def Exporter.emit (s : Exporter) (e : Event) : Exporter :=
  { s with events := s.events ++ [e] }

/-- The interface `jira.Client`: the pair that one call of `GetIssues` returns.
The fetched slice holds pointers to issues; the client of this repository
fills it with freshly allocated issues, so no element is nil. -/
structure Client where
  GetIssues : List Issue × Option String

/-! ## main.go: calculateMetrics -/

/-- One iteration of the `for ... range issues` loop of `calculateMetrics`;
`timeNow` is the reading of `time.Now()` inside this iteration. -/
def loopBody (issue : Issue) (timeNow : Time) (s : Exporter) : Exporter :=
  let labels : LabelValues := [issue.Priority, issue.Status]
  let s : Exporter := { s with issueGauge := (s.issueGauge.With labels).Inc labels }
  if isBreachingSLA issue timeNow then
    let labels : LabelValues := [issue.Priority]
    { s with breachingSLAGauge := (s.breachingSLAGauge.With labels).Inc labels }
  else
    s

/-- The `for ... range issues` loop of `calculateMetrics`, from iteration `i`
on; `clock j` is the reading of `time.Now()` during iteration `j`. -/
def rangeLoop (clock : Nat → Time) : Nat → List Issue → Exporter → Exporter
  | _, [], s => s
  | i, issue :: rest, s => rangeLoop clock (i + 1) rest (loopBody issue (clock i) s)

/-- The function `calculateMetrics`: the returned error and the state after
the call. -/
def calculateMetrics (c : Client) (clock : Nat → Time) (s : Exporter) :
    Option String × Exporter :=
  let s := s.emit (.logDebug "Querying JIRA for OHSS issues")
  match c.GetIssues with
  | (_, some err) =>
    (some err, s.emit (.logError "There was an error querying JIRA"))
  | (issues, none) =>
    let s : Exporter :=
      { s with issueGauge := s.issueGauge.Reset
               breachingSLAGauge := s.breachingSLAGauge.Reset }
    let s := rangeLoop clock 0 issues s
    (none, s.emit (.logDebug "Gauges Updated"))

/-- The function `registerMetrics`. -/
def registerMetrics (s : Exporter) : Exporter :=
  (s.emit (.mustRegister "ohss_issues")).emit (.mustRegister "ohss_issues_breaching_sla")

/-! ## pkg/jira: NewClient -/

/-- The constant `JIRA_TOKEN_ENV_KEY`. -/
def JIRA_TOKEN_ENV_KEY : String := "JIRA_API_TOKEN"

/-- The constant `JIRA_BASE_URL` of `main.go`. -/
def JIRA_BASE_URL : String := "https://issues.redhat.com"

/-- Go `os.Getenv`: the value of the variable, or the empty string when it is
not set. -/
def Getenv (env : String → Option String) (key : String) : String :=
  (env key).getD ""

/-- The struct `client` of `pkg/jira`, wrapping a client `J` of the go-jira
library. -/
structure client (J : Type) where
  client : J

/-- The function `NewClient`: the returned pointer (`none` for nil) and the
returned error. `env` is the process environment and `jiraNewClient token
url` is the outcome of the library constructor `jira.NewClient` on the
transport carrying `token`. -/
def NewClient {J : Type} (env : String → Option String)
    (jiraNewClient : String → String → Except String J) (jiraURL : String) :
    Option (client J) × Option String :=
  if jiraURL = "" then
    (none, some "JIRA URL cannot be empty")
  else
    let jiratoken : String :=
      if Getenv env JIRA_TOKEN_ENV_KEY ≠ "" then Getenv env JIRA_TOKEN_ENV_KEY else ""
    if jiratoken = "" then
      (none, some "JIRA token is not defined.")
    else
      match jiraNewClient jiratoken jiraURL with
      | .error err => (none, some err)
      | .ok jiraClient => (some { client := jiraClient }, none)

/-! ## main.go: init and main -/

/-- The map `logLevelMap` of `init`, with the `slog` levels Debug = -4,
Info = 0, Warn = 4, Error = 8. -/
def logLevelMap : List (String × Int) :=
  [("debug", -4), ("info", 0), ("warn", 4), ("warning", 4), ("err", 8), ("error", 8)]

/-- The function `init`, given the parsed value of the `-log-level` flag. On a
missing key the comma-ok lookup leaves `level` at the zero value, which
`%s` prints as `INFO`. -/
def init (logLevel : String) (s : Exporter) : Exporter × Option Halt :=
  match logLevelMap.lookup logLevel with
  | none =>
    (s.emit (.logError
        "non-valid log level \x27INFO\x27 entered. Available values are debug, info, warning, error"),
      some (.exit 1))
  | some _ =>
    (s.emit (.setDefaultLogger ((logLevelMap.lookup logLevel).getD 0)), none)

/-- The function `main` up to the call of `http.ListenAndServe`. `fetch c` is
what `GetIssues` returns on the constructed client in the initial call of
`calculateMetrics`. The result `none` means the process is serving. -/
def main {J : Type} (env : String → Option String)
    (jiraNewClient : String → String → Except String J)
    (fetch : client J → List Issue × Option String)
    (clock : Nat → Time) (s : Exporter) : Exporter × Option Halt :=
  match NewClient env jiraNewClient JIRA_BASE_URL with
  | (_, some err) => (s.emit (.println err), some (.panicked err))
  | (none, none) =>
    ((registerMetrics s).emit (.logDebug "Querying JIRA for OHSS issues"),
      some (.panicked "invalid memory address or nil pointer dereference"))
  | (some jiraClient, none) =>
    let s := registerMetrics s
    let s := (calculateMetrics { GetIssues := fetch jiraClient } clock s).2
    let s := s.emit .goroutine
    let s := s.emit (.httpHandle "/metrics")
    (s.emit (.listenAndServe ":8000"), none)

/-- The Go runtime runs `init` before `main`; a halt in `init` ends the
process. -/
def program {J : Type} (logLevel : String) (env : String → Option String)
    (jiraNewClient : String → String → Except String J)
    (fetch : client J → List Issue × Option String)
    (clock : Nat → Time) (s : Exporter) : Exporter × Option Halt :=
  match init logLevel s with
  | (s, some h) => (s, some h)
  | (s, none) => main env jiraNewClient fetch clock s


/-! ## Facts about the gauge vector -/

theorem findChild_append_single (k k' : LabelValues) (v : Nat)
    (m : List (LabelValues × Nat)) :
    findChild k' (m ++ [(k, v)]) =
      if (findChild k' m).isSome then findChild k' m
      else if k = k' then some v else none := by
  induction m with
  | nil => simp [findChild]
  | cons e rest ih =>
    by_cases h : e.1 = k'
    · simp [findChild, h]
    · simp [findChild, h, ih]

theorem findChild_incChild (k k' : LabelValues) (m : List (LabelValues × Nat)) :
    findChild k' (incChild k m) =
      if k' = k then (findChild k' m).map (fun v => v + 1) else findChild k' m := by
  induction m with
  | nil => simp [findChild, incChild]
  | cons e rest ih =>
    by_cases h : e.1 = k
    · by_cases h' : k' = k
      · simp [findChild, incChild, h, h']
      · have h2 : ¬ k = k' := fun hh => h' hh.symm
        simp [findChild, incChild, h, h', h2]
    · by_cases h' : e.1 = k'
      · have h2 : ¬ k' = k := fun hh => h (h'.trans hh)
        simp [findChild, incChild, h, h', h2]
      · simp [findChild, incChild, h, h', ih]

/-- Reading a vector after `With(k).Inc()`. -/
theorem get_With_Inc (g : GaugeVec) (k k' : LabelValues) :
    ((g.With k).Inc k).get k' =
      if k' = k then some ((g.get k').getD 0 + 1) else g.get k' := by
  unfold GaugeVec.Inc GaugeVec.get GaugeVec.With
  rw [findChild_incChild]
  by_cases hk : k' = k
  · subst hk
    cases hc : findChild k' g.metrics with
    | none => simp [hc, findChild_append_single]
    | some v => simp [hc]
  · have hk2 : ¬ k = k' := fun hh => hk hh.symm
    cases hc : findChild k g.metrics with
    | none =>
      simp only [hk, hc, Option.isSome_none, if_false, Bool.false_eq_true]
      rw [findChild_append_single]
      cases findChild k' g.metrics <;> simp [hk2]
    | some v => simp [hk, hc]

theorem sum_incChild (keep : LabelValues → Bool) (k : LabelValues)
    (m : List (LabelValues × Nat)) (h : (findChild k m).isSome = true) :
    (((incChild k m).filter (fun e => keep e.1)).map (fun e => e.2)).sum =
      ((m.filter (fun e => keep e.1)).map (fun e => e.2)).sum +
        (if keep k then 1 else 0) := by
  induction m with
  | nil => simp [findChild] at h
  | cons e rest ih =>
    by_cases he : e.1 = k
    · cases hk : keep k <;> simp [incChild, he, hk, List.filter_cons]
      omega
    · have ih2 := ih (by simpa [findChild, he] using h)
      cases hk : keep e.1 <;> simp [incChild, he, hk, List.filter_cons, ih2]
      omega

/-- The sum over the children selected by `keep` after `With(k).Inc()`. -/
theorem total_With_Inc (keep : LabelValues → Bool) (g : GaugeVec) (k : LabelValues) :
    ((g.With k).Inc k).total keep = g.total keep + (if keep k then 1 else 0) := by
  unfold GaugeVec.Inc GaugeVec.total
  have hsome : (findChild k (g.With k).metrics).isSome = true := by
    unfold GaugeVec.With
    by_cases hc : (findChild k g.metrics).isSome = true
    · simp [hc]
    · simp [hc, findChild_append_single]
  rw [sum_incChild keep k _ hsome]
  congr 1
  unfold GaugeVec.With
  by_cases hc : (findChild k g.metrics).isSome = true
  · simp [hc]
  · cases hk : keep k <;> simp [hc, hk, List.filter_append, List.filter_cons]

/-! ## Facts about the loop of calculateMetrics -/

theorem loopBody_issueGauge (x : Issue) (t : Time) (s : Exporter) :
    (loopBody x t s).issueGauge =
      (s.issueGauge.With [x.Priority, x.Status]).Inc [x.Priority, x.Status] := by
  unfold loopBody
  by_cases h : isBreachingSLA x t = true <;> simp [h]

theorem loopBody_breachingSLAGauge (x : Issue) (t : Time) (s : Exporter) :
    (loopBody x t s).breachingSLAGauge =
      if isBreachingSLA x t = true then
        (s.breachingSLAGauge.With [x.Priority]).Inc [x.Priority]
      else s.breachingSLAGauge := by
  unfold loopBody
  by_cases h : isBreachingSLA x t = true <;> simp [h]

theorem loopBody_events (x : Issue) (t : Time) (s : Exporter) :
    (loopBody x t s).events = s.events := by
  unfold loopBody
  by_cases h : isBreachingSLA x t = true <;> simp [h]

theorem rangeLoop_events (clock : Nat → Time) (L : List Issue) :
    ∀ (i : Nat) (s : Exporter), (rangeLoop clock i L s).events = s.events := by
  induction L with
  | nil => intro i s; rfl
  | cons x rest ih => intro i s; rw [rangeLoop, ih, loopBody_events]

/-- The gauges after the loop are determined by the gauges before it. -/
theorem rangeLoop_gauges_congr (clock : Nat → Time) (L : List Issue) :
    ∀ (i : Nat) (s s' : Exporter), s.issueGauge = s'.issueGauge →
      s.breachingSLAGauge = s'.breachingSLAGauge →
      (rangeLoop clock i L s).issueGauge = (rangeLoop clock i L s').issueGauge ∧
      (rangeLoop clock i L s).breachingSLAGauge =
        (rangeLoop clock i L s').breachingSLAGauge := by
  induction L with
  | nil => intro i s s' h1 h2; exact ⟨h1, h2⟩
  | cons x rest ih =>
    intro i s s' h1 h2
    rw [rangeLoop, rangeLoop]
    apply ih
    · rw [loopBody_issueGauge, loopBody_issueGauge, h1]
    · rw [loopBody_breachingSLAGauge, loopBody_breachingSLAGauge, h2]

/-- Reading the issue vector after the loop. -/
theorem rangeLoop_issueGauge_get (clock : Nat → Time) (k : LabelValues) (L : List Issue) :
    ∀ (i : Nat) (s : Exporter),
      (rangeLoop clock i L s).issueGauge.get k =
        if L.countP (fun x => decide ([x.Priority, x.Status] = k)) = 0 then
          s.issueGauge.get k
        else
          some ((s.issueGauge.get k).getD 0 +
            L.countP (fun x => decide ([x.Priority, x.Status] = k))) := by
  induction L with
  | nil => intro i s; simp [rangeLoop]
  | cons x rest ih =>
    intro i s
    rw [rangeLoop, ih, loopBody_issueGauge, get_With_Inc, List.countP_cons]
    generalize List.countP (fun x => decide ([x.Priority, x.Status] = k)) rest = n
    generalize s.issueGauge.get k = o
    by_cases hk : k = [x.Priority, x.Status]
    · have hk2 : [x.Priority, x.Status] = k := hk.symm
      by_cases hn : n = 0
      · simp [hk2, hn]
      · simp only [hk2, hn, decide_True, if_true, if_false, Option.getD_some]
        rw [if_neg (by omega)]
        congr 1
        omega
    · have hk2 : ¬ [x.Priority, x.Status] = k := fun hh => hk hh.symm
      simp [hk, hk2]

/-- Reading the breach vector after the loop. -/
theorem rangeLoop_breachingSLAGauge_get (clock : Nat → Time) (k : LabelValues)
    (L : List Issue) :
    ∀ (i : Nat) (s : Exporter),
      (rangeLoop clock i L s).breachingSLAGauge.get k =
        if (L.enumFrom i).countP
            (fun e => decide ([e.2.Priority] = k) && isBreachingSLA e.2 (clock e.1)) = 0 then
          s.breachingSLAGauge.get k
        else
          some ((s.breachingSLAGauge.get k).getD 0 +
            (L.enumFrom i).countP
              (fun e => decide ([e.2.Priority] = k) && isBreachingSLA e.2 (clock e.1))) := by
  induction L with
  | nil => intro i s; simp [rangeLoop]
  | cons x rest ih =>
    intro i s
    rw [rangeLoop, ih, loopBody_breachingSLAGauge, List.enumFrom_cons, List.countP_cons]
    generalize List.countP
      (fun e => decide ([e.2.Priority] = k) && isBreachingSLA e.2 (clock e.1))
      (List.enumFrom (i + 1) rest) = n
    by_cases hb : isBreachingSLA x (clock i) = true
    · simp only [hb, if_true, Bool.and_true]
      rw [get_With_Inc]
      generalize s.breachingSLAGauge.get k = o
      by_cases hk : k = [x.Priority]
      · have hk2 : [x.Priority] = k := hk.symm
        by_cases hn : n = 0
        · simp [hk2, hn]
        · simp only [hk2, hn, decide_True, if_true, if_false, Option.getD_some]
          rw [if_neg (by omega)]
          congr 1
          omega
      · have hk2 : ¬ [x.Priority] = k := fun hh => hk hh.symm
        simp [hk, hk2]
    · simp [hb]

/-- The sum over the children of the issue vector selected by `keep`, after the
loop. -/
theorem rangeLoop_issueGauge_total (clock : Nat → Time) (keep : LabelValues → Bool)
    (L : List Issue) :
    ∀ (i : Nat) (s : Exporter),
      (rangeLoop clock i L s).issueGauge.total keep =
        s.issueGauge.total keep + L.countP (fun x => keep [x.Priority, x.Status]) := by
  induction L with
  | nil => intro i s; simp [rangeLoop]
  | cons x rest ih =>
    intro i s
    rw [rangeLoop, ih, loopBody_issueGauge, total_With_Inc, List.countP_cons]
    omega

/-- With a clock that always reads `now`, counting over the numbered list is
counting over the list. -/
theorem countP_enumFrom_const (p : Issue → Bool) (L : List Issue) :
    ∀ i : Nat, (L.enumFrom i).countP (fun e => p e.2) = L.countP p := by
  induction L with
  | nil => intro i; rfl
  | cons x rest ih =>
    intro i
    rw [List.enumFrom_cons, List.countP_cons, List.countP_cons, ih]

/-- Flagged issues of priority `p` are among the issues of priority `p`. -/
theorem countP_breaching_le (clock : Nat → Time) (p : String) (L : List Issue) :
    ∀ i : Nat,
      (L.enumFrom i).countP
          (fun e => decide ([e.2.Priority] = [p]) && isBreachingSLA e.2 (clock e.1)) ≤
        L.countP (fun x => hasPriority p [x.Priority, x.Status]) := by
  induction L with
  | nil => intro i; simp
  | cons x rest ih =>
    intro i
    rw [List.enumFrom_cons, List.countP_cons, List.countP_cons]
    have h := ih (i + 1)
    have hx : hasPriority p [x.Priority, x.Status] = decide (x.Priority = p) := rfl
    rw [hx]
    by_cases hp : x.Priority = p
    · simp only [hp, decide_True, if_true]
      split_ifs <;> omega
    · have hd : decide ([x.Priority] = [p]) = false := by simp [hp]
      simp only [hp, hd, decide_False, Bool.false_and, Bool.false_eq_true, if_false]
      omega

/-! ## Facts about isBreachingSLA -/

/-- Closed form of the classifier: the status gate and a comparison with the
clock reading itself. -/
theorem isBreachingSLA_eq (issue : Issue) (timeNow : Time) :
    isBreachingSLA issue timeNow =
      (decide (issue.Status = "in_progress" ∨ issue.Status = "new") &&
        decide (issue.LastUpdatedTime < timeNow)) := by
  unfold isBreachingSLA Time.Before
  by_cases h1 : issue.Status = "in_progress"
  · simp [h1]
  · by_cases h2 : issue.Status = "new"
    · simp [h2]
    · simp [h1, h2]

/-- A flagged issue has status `new` or `in_progress`. -/
theorem status_of_isBreachingSLA (issue : Issue) (timeNow : Time)
    (h : isBreachingSLA issue timeNow = true) :
    issue.Status = "in_progress" ∨ issue.Status = "new" := by
  rw [isBreachingSLA_eq] at h
  simp only [Bool.and_eq_true, decide_eq_true_eq] at h
  exact h.1

/-- C1 (code at the failing input): an urgent `in_progress` issue last updated
three hours before the clock reading is classified as breaching, although
its last update is not earlier than the reading minus four hours. -/
theorem isBreachingSLA_urgent_three_hours (now : Time) :
    isBreachingSLA
      { Status := "in_progress", Priority := "urgent",
        LastUpdatedTime := now - 3 * Hour } now = true ∧
    ¬ (now - 3 * Hour < Time.Add now (-4 * Hour)) := by
  constructor
  · rw [isBreachingSLA_eq]
    simp [Hour]
  · simp only [Time.Add, Hour]
    intro h
    linarith

/-- C2 (code at the failing input): a medium and a low `new` issue last updated
one hour before the clock reading are both classified as breaching,
although the last update is not earlier than the reading minus 24 hours,
respectively minus 72 hours. -/
theorem isBreachingSLA_medium_low_one_hour (now : Time) :
    (isBreachingSLA
        { Status := "new", Priority := "medium",
          LastUpdatedTime := now - 1 * Hour } now = true ∧
      ¬ (now - 1 * Hour < Time.Add now (-24 * Hour))) ∧
    (isBreachingSLA
        { Status := "new", Priority := "low",
          LastUpdatedTime := now - 1 * Hour } now = true ∧
      ¬ (now - 1 * Hour < Time.Add now (-72 * Hour))) := by
  refine ⟨⟨?_, ?_⟩, ⟨?_, ?_⟩⟩
  · rw [isBreachingSLA_eq]
    simp [Hour]
  · simp only [Time.Add, Hour]
    intro h
    linarith
  · rw [isBreachingSLA_eq]
    simp [Hour]
  · simp only [Time.Add, Hour]
    intro h
    linarith

/-- C3: an issue whose status is neither `new` nor `in_progress` is never
breaching, whatever its priority, its last update time and the clock
reading. -/
theorem isBreachingSLA_other_status (issue : Issue) (now : Time)
    (hnew : issue.Status ≠ "new") (hprog : issue.Status ≠ "in_progress") :
    isBreachingSLA issue now = false := by
  rw [isBreachingSLA_eq]
  simp [hnew, hprog]

/-- C3 at the scenario of the specification: priority `low`, status
`pending_customer`, last updated 1000 hours before the clock reading. -/
theorem isBreachingSLA_other_status_witness :
    isBreachingSLA
      { Status := "pending_customer", Priority := "low",
        LastUpdatedTime := 5000 * Hour - 1000 * Hour } (5000 * Hour) = false :=
  isBreachingSLA_other_status _ _ (by decide) (by decide)

/-- C4: for a `new` or `in_progress` issue whose priority is none of `urgent`,
`high`, `medium`, `low`, the threshold is the clock reading itself: the
issue is breaching exactly when it was last updated strictly before `now`,
so an issue updated at or after `now` is not breaching. -/
theorem isBreachingSLA_unknown_priority (issue : Issue) (now : Time)
    (hstatus : issue.Status = "new" ∨ issue.Status = "in_progress")
    (_hprio : issue.Priority ≠ "urgent" ∧ issue.Priority ≠ "high" ∧
      issue.Priority ≠ "medium" ∧ issue.Priority ≠ "low") :
    (isBreachingSLA issue now = true ↔ issue.LastUpdatedTime < now) ∧
    (now ≤ issue.LastUpdatedTime → isBreachingSLA issue now = false) := by
  rw [isBreachingSLA_eq]
  have hs : issue.Status = "in_progress" ∨ issue.Status = "new" := hstatus.symm
  constructor
  · simp [hs]
  · intro h
    simp [hs, not_lt.mpr h]

/-- C4 at a concrete issue with priority `blocker`. -/
theorem isBreachingSLA_unknown_priority_witness :
    (isBreachingSLA
        { Status := "new", Priority := "blocker", LastUpdatedTime := 7 } 8 = true ↔
      (7 : Time) < 8) ∧
    ((8 : Time) ≤ 7 →
      isBreachingSLA
        { Status := "new", Priority := "blocker", LastUpdatedTime := 7 } 8 = false) :=
  isBreachingSLA_unknown_priority
    { Status := "new", Priority := "blocker", LastUpdatedTime := 7 } 8
    (Or.inl rfl) (by decide)

/-! ## Facts about calculateMetrics -/

/-- The state after a pass whose fetch succeeded. -/
theorem calculateMetrics_ok (L : List Issue) (clock : Nat → Time) (s : Exporter) :
    calculateMetrics { GetIssues := (L, none) } clock s =
      (none,
        (rangeLoop clock 0 L
          { issueGauge := ⟨[]⟩, breachingSLAGauge := ⟨[]⟩,
            events := s.events ++ [Event.logDebug "Querying JIRA for OHSS issues"] }).emit
          (.logDebug "Gauges Updated")) := rfl

theorem calculateMetrics_issueGauge_get (L : List Issue) (clock : Nat → Time)
    (s : Exporter) (k : LabelValues) :
    (calculateMetrics { GetIssues := (L, none) } clock s).2.issueGauge.get k =
      if L.countP (fun x => decide ([x.Priority, x.Status] = k)) = 0 then none
      else some (L.countP (fun x => decide ([x.Priority, x.Status] = k))) := by
  rw [calculateMetrics_ok]
  show (rangeLoop clock 0 L _).issueGauge.get k = _
  rw [rangeLoop_issueGauge_get]
  simp [GaugeVec.get, findChild]

theorem calculateMetrics_breachingSLAGauge_get (L : List Issue) (clock : Nat → Time)
    (s : Exporter) (k : LabelValues) :
    (calculateMetrics { GetIssues := (L, none) } clock s).2.breachingSLAGauge.get k =
      if (L.enumFrom 0).countP
          (fun e => decide ([e.2.Priority] = k) && isBreachingSLA e.2 (clock e.1)) = 0 then
        none
      else
        some ((L.enumFrom 0).countP
          (fun e => decide ([e.2.Priority] = k) && isBreachingSLA e.2 (clock e.1))) := by
  rw [calculateMetrics_ok]
  show (rangeLoop clock 0 L _).breachingSLAGauge.get k = _
  rw [rangeLoop_breachingSLAGauge_get]
  simp [GaugeVec.get, findChild]

theorem calculateMetrics_issueGauge_total (L : List Issue) (clock : Nat → Time)
    (s : Exporter) (keep : LabelValues → Bool) :
    (calculateMetrics { GetIssues := (L, none) } clock s).2.issueGauge.total keep =
      L.countP (fun x => keep [x.Priority, x.Status]) := by
  rw [calculateMetrics_ok]
  show (rangeLoop clock 0 L _).issueGauge.total keep = _
  rw [rangeLoop_issueGauge_total]
  simp [GaugeVec.total]

/-- The gauges after a successful pass do not depend on the state before it. -/
theorem calculateMetrics_gauges_congr (L : List Issue) (clock : Nat → Time)
    (s s' : Exporter) :
    (calculateMetrics { GetIssues := (L, none) } clock s).2.issueGauge =
        (calculateMetrics { GetIssues := (L, none) } clock s').2.issueGauge ∧
      (calculateMetrics { GetIssues := (L, none) } clock s).2.breachingSLAGauge =
        (calculateMetrics { GetIssues := (L, none) } clock s').2.breachingSLAGauge := by
  rw [calculateMetrics_ok, calculateMetrics_ok]
  exact rangeLoop_gauges_congr clock L 0 _ _ rfl rfl

theorem countP_pair_key (L : List Issue) (p st : String) :
    L.countP (fun x => decide ([x.Priority, x.Status] = [p, st])) =
      L.countP (fun x => decide (x.Priority = p ∧ x.Status = st)) := by
  congr 1
  funext x
  simp

theorem countP_single_key (clock : Nat → Time) (L : List Issue) (p : String) (i : Nat) :
    (L.enumFrom i).countP
        (fun e => decide ([e.2.Priority] = [p]) && isBreachingSLA e.2 (clock e.1)) =
      (L.enumFrom i).countP
        (fun e => decide (e.2.Priority = p) && isBreachingSLA e.2 (clock e.1)) := by
  congr 1
  funext e
  simp

/-- C5: after a successful pass over the fetched list `L`, the issue vector
holds for every pair `(p, st)` the number of issues of `L` with that
priority and status, and the breach vector holds for every priority `p` the
number of issues of `L` with that priority that `isBreachingSLA` flags (at
the clock reading of its iteration; with a clock that always reads `now`,
the number of `x` in `L` with `isBreachingSLA x now`). A child exists only
when that number is at least 1, and no child has other label values. For
the empty list both vectors are empty, and for two issues with priority
`high` and status `new` the child `(high, new)` reads 2 and there is no
other child. -/
theorem calculateMetrics_counts :
    (∀ (L : List Issue) (clock : Nat → Time) (s : Exporter),
      (calculateMetrics { GetIssues := (L, none) } clock s).1 = none ∧
      (∀ p st : String,
        (calculateMetrics { GetIssues := (L, none) } clock s).2.issueGauge.get [p, st] =
          if L.countP (fun x => decide (x.Priority = p ∧ x.Status = st)) = 0 then none
          else some (L.countP (fun x => decide (x.Priority = p ∧ x.Status = st)))) ∧
      (∀ k : LabelValues,
        (calculateMetrics { GetIssues := (L, none) } clock s).2.issueGauge.get k = none ∨
          ∃ p st : String, k = [p, st]) ∧
      (∀ p : String,
        (calculateMetrics { GetIssues := (L, none) } clock s).2.breachingSLAGauge.get [p] =
          if L.enum.countP
              (fun e => decide (e.2.Priority = p) && isBreachingSLA e.2 (clock e.1)) = 0 then
            none
          else
            some (L.enum.countP
              (fun e => decide (e.2.Priority = p) && isBreachingSLA e.2 (clock e.1)))) ∧
      (∀ k : LabelValues,
        (calculateMetrics { GetIssues := (L, none) } clock s).2.breachingSLAGauge.get k =
            none ∨
          ∃ p : String, k = [p])) ∧
    (∀ (L : List Issue) (now : Time) (s : Exporter) (p : String),
      (calculateMetrics { GetIssues := (L, none) } (fun _ => now) s).2.breachingSLAGauge.get
          [p] =
        if L.countP (fun x => decide (x.Priority = p) && isBreachingSLA x now) = 0 then none
        else some (L.countP (fun x => decide (x.Priority = p) && isBreachingSLA x now))) ∧
    (∀ (clock : Nat → Time) (s : Exporter),
      (calculateMetrics { GetIssues := ([], none) } clock s).2.issueGauge.metrics = [] ∧
      (calculateMetrics { GetIssues := ([], none) } clock s).2.breachingSLAGauge.metrics =
        []) ∧
    (∀ (t1 t2 : Time) (clock : Nat → Time) (s : Exporter) (k : LabelValues),
      (calculateMetrics
          { GetIssues :=
              ([{ Status := "new", Priority := "high", LastUpdatedTime := t1 },
                { Status := "new", Priority := "high", LastUpdatedTime := t2 }], none) }
          clock s).2.issueGauge.get k =
        if k = ["high", "new"] then some 2 else none) := by
  refine ⟨?_, ?_, ?_, ?_⟩
  · intro L clock s
    refine ⟨rfl, ?_, ?_, ?_, ?_⟩
    · intro p st
      rw [calculateMetrics_issueGauge_get, countP_pair_key]
    · intro k
      rw [calculateMetrics_issueGauge_get]
      by_cases h0 : L.countP (fun x => decide ([x.Priority, x.Status] = k)) = 0
      · left
        simp [h0]
      · right
        have hpos : 0 < L.countP (fun x => decide ([x.Priority, x.Status] = k)) := by omega
        obtain ⟨x, -, hx⟩ := List.countP_pos_iff.mp hpos
        exact ⟨x.Priority, x.Status, (of_decide_eq_true hx).symm⟩
    · intro p
      rw [calculateMetrics_breachingSLAGauge_get, countP_single_key]
      rfl
    · intro k
      rw [calculateMetrics_breachingSLAGauge_get]
      by_cases h0 : (L.enumFrom 0).countP
          (fun e => decide ([e.2.Priority] = k) && isBreachingSLA e.2 (clock e.1)) = 0
      · left
        simp [h0]
      · right
        have hpos : 0 < (L.enumFrom 0).countP
            (fun e => decide ([e.2.Priority] = k) && isBreachingSLA e.2 (clock e.1)) := by
          omega
        obtain ⟨e, -, he⟩ := List.countP_pos_iff.mp hpos
        simp only [Bool.and_eq_true, decide_eq_true_eq] at he
        exact ⟨e.2.Priority, he.1.symm⟩
  · intro L now s p
    rw [calculateMetrics_breachingSLAGauge_get, countP_single_key (fun _ => now)]
    exact congrArg (fun n : Nat => if n = 0 then none else some n)
      (countP_enumFrom_const (fun x => decide (x.Priority = p) && isBreachingSLA x now) L 0)
  · intro clock s
    exact ⟨rfl, rfl⟩
  · intro t1 t2 clock s k
    rw [calculateMetrics_issueGauge_get]
    by_cases hk : k = ["high", "new"]
    · subst hk
      simp [List.countP_cons]
    · have hk2 : ¬ ["high", "new"] = k := fun hh => hk hh.symm
      simp [List.countP_cons, hk, hk2]

/-- C6: the vectors after a successful pass depend only on the fetched list
and the clock, not on the state before the pass. So after a second pass a
child exists only if an issue of the second list incremented it, whatever
the first pass left behind, and two passes over the same list with a clock
that always reads `now` leave the same vectors. -/
theorem calculateMetrics_reset_before_rebuild :
    (∀ (L : List Issue) (clock : Nat → Time) (s1 s2 : Exporter),
      (calculateMetrics { GetIssues := (L, none) } clock s1).2.issueGauge =
        (calculateMetrics { GetIssues := (L, none) } clock s2).2.issueGauge ∧
      (calculateMetrics { GetIssues := (L, none) } clock s1).2.breachingSLAGauge =
        (calculateMetrics { GetIssues := (L, none) } clock s2).2.breachingSLAGauge) ∧
    (∀ (L1 L2 : List Issue) (clock1 clock2 : Nat → Time) (s : Exporter) (k : LabelValues),
      (∀ x ∈ L2, [x.Priority, x.Status] ≠ k) →
      (calculateMetrics { GetIssues := (L2, none) } clock2
        (calculateMetrics { GetIssues := (L1, none) } clock1 s).2).2.issueGauge.get k =
          none) ∧
    (∀ (L1 L2 : List Issue) (clock1 clock2 : Nat → Time) (s : Exporter) (k : LabelValues),
      (∀ (i : Nat) (x : Issue), L2[i]? = some x →
        ¬ ([x.Priority] = k ∧ isBreachingSLA x (clock2 i) = true)) →
      (calculateMetrics { GetIssues := (L2, none) } clock2
        (calculateMetrics { GetIssues := (L1, none) } clock1
          s).2).2.breachingSLAGauge.get k = none) ∧
    (∀ (L : List Issue) (now : Time) (s : Exporter),
      (calculateMetrics { GetIssues := (L, none) } (fun _ => now)
          (calculateMetrics { GetIssues := (L, none) } (fun _ => now) s).2).2.issueGauge =
        (calculateMetrics { GetIssues := (L, none) } (fun _ => now) s).2.issueGauge ∧
      (calculateMetrics { GetIssues := (L, none) } (fun _ => now)
          (calculateMetrics { GetIssues := (L, none) } (fun _ => now)
            s).2).2.breachingSLAGauge =
        (calculateMetrics { GetIssues := (L, none) } (fun _ => now)
          s).2.breachingSLAGauge) := by
  refine ⟨?_, ?_, ?_, ?_⟩
  · intro L clock s1 s2
    exact calculateMetrics_gauges_congr L clock s1 s2
  · intro L1 L2 clock1 clock2 s k hk
    rw [calculateMetrics_issueGauge_get]
    have h0 : L2.countP (fun x => decide ([x.Priority, x.Status] = k)) = 0 := by
      rw [List.countP_eq_zero]
      intro x hx
      simpa using hk x hx
    simp [h0]
  · intro L1 L2 clock1 clock2 s k hk
    rw [calculateMetrics_breachingSLAGauge_get]
    have h0 : (L2.enumFrom 0).countP
        (fun e => decide ([e.2.Priority] = k) && isBreachingSLA e.2 (clock2 e.1)) = 0 := by
      rw [List.countP_eq_zero]
      rintro ⟨i, x⟩ hmem
      have hget : L2[i]? = some x := by
        have := List.mk_mem_enumFrom_iff_le_and_getElem?_sub.mp hmem
        simpa using this.2
      simpa using hk i x hget
    simp [h0]
  · intro L now s
    exact calculateMetrics_gauges_congr L (fun _ => now) _ s

/-- C6 at a concrete pair of passes: the child `(high, new)` created by the
first pass is gone after a second pass over a list without such an issue. -/
theorem calculateMetrics_reset_before_rebuild_witness :
    (calculateMetrics
        { GetIssues := ([{ Status := "new", Priority := "low", LastUpdatedTime := 2 }], none) }
        (fun _ => 9)
        (calculateMetrics
          { GetIssues :=
              ([{ Status := "new", Priority := "high", LastUpdatedTime := 1 }], none) }
          (fun _ => 5)
          { issueGauge := ⟨[]⟩, breachingSLAGauge := ⟨[]⟩,
            events := [] }).2).2.issueGauge.get ["high", "new"] = none :=
  calculateMetrics_reset_before_rebuild.2.1 _ _ _ _ _ _ (by decide)

/-- C7: when `GetIssues` returns an error, `calculateMetrics` returns that
error and both vectors are as they were before the call; the returned error
is nil exactly when `GetIssues` returned no error. -/
theorem calculateMetrics_fetch_error (c : Client) (clock : Nat → Time) (s : Exporter) :
    ((calculateMetrics c clock s).1 = none ↔ c.GetIssues.2 = none) ∧
    (∀ err : String, c.GetIssues.2 = some err →
      (calculateMetrics c clock s).1 = some err ∧
      (calculateMetrics c clock s).2.issueGauge = s.issueGauge ∧
      (calculateMetrics c clock s).2.breachingSLAGauge = s.breachingSLAGauge) := by
  obtain ⟨⟨L, e⟩⟩ := c
  cases e with
  | none => simp [calculateMetrics]
  | some e =>
    refine ⟨by simp [calculateMetrics], ?_⟩
    intro err herr
    have he : e = err := by simpa using herr
    subst he
    exact ⟨rfl, rfl, rfl⟩

/-- C7 at a concrete failing fetch over vectors that hold children. -/
theorem calculateMetrics_fetch_error_witness :
    (calculateMetrics { GetIssues := ([], some "connection refused") } (fun _ => 0)
        { issueGauge := ⟨[(["high", "new"], 2)]⟩,
          breachingSLAGauge := ⟨[(["high"], 1)]⟩, events := [] }).1 =
      some "connection refused" ∧
    (calculateMetrics { GetIssues := ([], some "connection refused") } (fun _ => 0)
        { issueGauge := ⟨[(["high", "new"], 2)]⟩,
          breachingSLAGauge := ⟨[(["high"], 1)]⟩, events := [] }).2.issueGauge =
      ⟨[(["high", "new"], 2)]⟩ ∧
    (calculateMetrics { GetIssues := ([], some "connection refused") } (fun _ => 0)
        { issueGauge := ⟨[(["high", "new"], 2)]⟩,
          breachingSLAGauge := ⟨[(["high"], 1)]⟩, events := [] }).2.breachingSLAGauge =
      ⟨[(["high"], 1)]⟩ :=
  (calculateMetrics_fetch_error
    { GetIssues := ([], some "connection refused") } (fun _ => 0)
    { issueGauge := ⟨[(["high", "new"], 2)]⟩,
      breachingSLAGauge := ⟨[(["high"], 1)]⟩, events := [] }).2 "connection refused" rfl

theorem getD_count (n : Nat) : (if n = 0 then (none : Option Nat) else some n).getD 0 = n := by
  by_cases h : n = 0
  · simp [h]
  · simp [h]

/-- Flagged issues of priority `p` are among the issues of priority `p` with
status `new` or `in_progress`. -/
theorem countP_breaching_le_sla (clock : Nat → Time) (p : String) (L : List Issue) :
    ∀ i : Nat,
      (L.enumFrom i).countP
          (fun e => decide ([e.2.Priority] = [p]) && isBreachingSLA e.2 (clock e.1)) ≤
        L.countP (fun x => decide ([x.Priority, x.Status] = [p, "new"])) +
          L.countP (fun x => decide ([x.Priority, x.Status] = [p, "in_progress"])) := by
  induction L with
  | nil => intro i; simp
  | cons x rest ih =>
    intro i
    rw [List.enumFrom_cons, List.countP_cons, List.countP_cons, List.countP_cons]
    have h := ih (i + 1)
    have hhead : (decide ([x.Priority] = [p]) && isBreachingSLA x (clock i)) = true →
        decide ([x.Priority, x.Status] = [p, "new"]) = true ∨
          decide ([x.Priority, x.Status] = [p, "in_progress"]) = true := by
      intro ha
      simp only [Bool.and_eq_true, decide_eq_true_eq] at ha
      have hp : x.Priority = p := by simpa using ha.1
      rcases status_of_isBreachingSLA x (clock i) ha.2 with hs | hs
      · right
        simp [hp, hs]
      · left
        simp [hp, hs]
    generalize List.countP
      (fun e => decide ([e.2.Priority] = [p]) && isBreachingSLA e.2 (clock e.1))
      (List.enumFrom (i + 1) rest) = n at h ⊢
    generalize List.countP (fun x => decide ([x.Priority, x.Status] = [p, "new"])) rest =
      n1 at h ⊢
    generalize
      List.countP (fun x => decide ([x.Priority, x.Status] = [p, "in_progress"])) rest =
      n2 at h ⊢
    generalize (decide ([x.Priority] = [p]) && isBreachingSLA x (clock i)) = a at hhead ⊢
    generalize decide ([x.Priority, x.Status] = [p, "new"]) = b at hhead ⊢
    generalize decide ([x.Priority, x.Status] = [p, "in_progress"]) = c at hhead ⊢
    cases a <;> cases b <;> cases c <;> simp at hhead ⊢ <;> omega

/-- The status gate inside the classifier may be written out in the count of
flagged issues. -/
theorem countP_breaching_gate (clock : Nat → Time) (p : String) (L : List Issue) (i : Nat) :
    (L.enumFrom i).countP
        (fun e => decide ([e.2.Priority] = [p]) && isBreachingSLA e.2 (clock e.1)) =
      (L.enumFrom i).countP
        (fun e => decide (e.2.Priority = p) &&
          (decide (e.2.Status = "new") || decide (e.2.Status = "in_progress")) &&
          isBreachingSLA e.2 (clock e.1)) := by
  congr 1
  funext e
  rw [isBreachingSLA_eq]
  by_cases h1 : e.2.Status = "in_progress"
  · simp [h1]
  · by_cases h2 : e.2.Status = "new"
    · simp [h2]
    · simp [h1, h2]

/-- C10: after a successful pass, for every priority `p` the breach count of
`p` is at most the sum of the issue counts of the children `(p, s)` over
all statuses `s`, and the sum of all issue counts is the length of the
fetched list. Every issue counted as breaching lies in a bucket with status
`new` or `in_progress`: the breach count of `p` is at most the issue count
of `(p, new)` plus that of `(p, in_progress)`; it is exactly the number of
issues of priority `p` with one of these two statuses that `isBreachingSLA`
flags; the breach vector has no child for `p` when no issue of priority `p`
has one of these statuses; and an issue flagged in its iteration has one of
these statuses, is counted in the breach child of its priority and lies in
a child of the issue vector that reads at least 1. -/
theorem calculateMetrics_invariants (L : List Issue) (clock : Nat → Time) (s : Exporter) :
    (∀ p : String,
      ((calculateMetrics { GetIssues := (L, none) } clock s).2.breachingSLAGauge.get
          [p]).getD 0 ≤
        (calculateMetrics { GetIssues := (L, none) } clock s).2.issueGauge.total
          (hasPriority p)) ∧
    (calculateMetrics { GetIssues := (L, none) } clock s).2.issueGauge.total
        (fun _ => true) = L.length ∧
    (∀ p : String,
      ((calculateMetrics { GetIssues := (L, none) } clock s).2.breachingSLAGauge.get
          [p]).getD 0 ≤
        ((calculateMetrics { GetIssues := (L, none) } clock s).2.issueGauge.get
            [p, "new"]).getD 0 +
          ((calculateMetrics { GetIssues := (L, none) } clock s).2.issueGauge.get
            [p, "in_progress"]).getD 0) ∧
    (∀ p : String,
      ((calculateMetrics { GetIssues := (L, none) } clock s).2.breachingSLAGauge.get
          [p]).getD 0 =
        L.enum.countP
          (fun e => decide (e.2.Priority = p) &&
            (decide (e.2.Status = "new") || decide (e.2.Status = "in_progress")) &&
            isBreachingSLA e.2 (clock e.1))) ∧
    (∀ p : String,
      (∀ x ∈ L, x.Priority = p → x.Status ≠ "new" ∧ x.Status ≠ "in_progress") →
      (calculateMetrics { GetIssues := (L, none) } clock s).2.breachingSLAGauge.get [p] =
        none) ∧
    (∀ (i : Nat) (x : Issue), L[i]? = some x → isBreachingSLA x (clock i) = true →
      (x.Status = "new" ∨ x.Status = "in_progress") ∧
      (∃ m : Nat, 1 ≤ m ∧
        (calculateMetrics { GetIssues := (L, none) } clock s).2.breachingSLAGauge.get
          [x.Priority] = some m) ∧
      ∃ n : Nat, 1 ≤ n ∧
        (calculateMetrics { GetIssues := (L, none) } clock s).2.issueGauge.get
          [x.Priority, x.Status] = some n) := by
  refine ⟨?_, ?_, ?_, ?_, ?_, ?_⟩
  · intro p
    rw [calculateMetrics_breachingSLAGauge_get, calculateMetrics_issueGauge_total]
    have hle := countP_breaching_le clock p L 0
    split_ifs with h0
    · simp
    · simpa using hle
  · rw [calculateMetrics_issueGauge_total]
    simp
  · intro p
    rw [calculateMetrics_breachingSLAGauge_get, calculateMetrics_issueGauge_get,
      calculateMetrics_issueGauge_get, getD_count, getD_count, getD_count]
    exact countP_breaching_le_sla clock p L 0
  · intro p
    rw [calculateMetrics_breachingSLAGauge_get, getD_count, countP_breaching_gate]
    rfl
  · intro p hp
    rw [calculateMetrics_breachingSLAGauge_get]
    have h0 : (L.enumFrom 0).countP
        (fun e => decide ([e.2.Priority] = [p]) && isBreachingSLA e.2 (clock e.1)) = 0 := by
      rw [List.countP_eq_zero]
      rintro ⟨i, x⟩ hmem hflag
      simp only [Bool.and_eq_true, decide_eq_true_eq] at hflag
      have hx : x ∈ L :=
        List.getElem?_mem (n := i)
          (by simpa using (List.mk_mem_enumFrom_iff_le_and_getElem?_sub.mp hmem).2)
      have hprio : x.Priority = p := by simpa using hflag.1
      have hst := hp x hx hprio
      rcases status_of_isBreachingSLA x (clock i) hflag.2 with h | h
      · exact hst.2 h
      · exact hst.1 h
    rw [h0]
    rfl
  · intro i x hget hb
    refine ⟨(status_of_isBreachingSLA x (clock i) hb).symm, ?_, ?_⟩
    · have hmem : (i, x) ∈ L.enumFrom 0 :=
        List.mk_mem_enumFrom_iff_le_and_getElem?_sub.mpr ⟨Nat.zero_le i, by simpa using hget⟩
      have hpos : 0 < (L.enumFrom 0).countP
          (fun e => decide ([e.2.Priority] = [x.Priority]) &&
            isBreachingSLA e.2 (clock e.1)) :=
        List.countP_pos_iff.mpr ⟨(i, x), hmem, by simp [hb]⟩
      refine ⟨_, hpos, ?_⟩
      rw [calculateMetrics_breachingSLAGauge_get, if_neg (by omega)]
    · have hmem : x ∈ L := List.getElem?_mem hget
      have hpos : 0 < L.countP
          (fun y => decide ([y.Priority, y.Status] = [x.Priority, x.Status])) :=
        List.countP_pos_iff.mpr ⟨x, hmem, by simp⟩
      refine ⟨_, hpos, ?_⟩
      rw [calculateMetrics_issueGauge_get, if_neg (by omega)]

/-- C10 at a concrete list: a `closed` issue and a `new` issue of priority
`high`, both last updated before the clock reading. The flagged `new` issue
is counted in the breach child of `high` and lies in a child of the issue
vector, and the breach vector has no child for `low`, a priority without
an issue of status `new` or `in_progress`. -/
theorem calculateMetrics_invariants_witness :
    (("new" = "new" ∨ "new" = "in_progress") ∧
      (∃ m : Nat, 1 ≤ m ∧
        (calculateMetrics
          { GetIssues :=
              ([{ Status := "closed", Priority := "low", LastUpdatedTime := 0 },
                { Status := "new", Priority := "high", LastUpdatedTime := 0 }], none) }
          (fun _ => 5)
          { issueGauge := ⟨[]⟩, breachingSLAGauge := ⟨[]⟩,
            events := [] }).2.breachingSLAGauge.get ["high"] = some m) ∧
      ∃ n : Nat, 1 ≤ n ∧
        (calculateMetrics
          { GetIssues :=
              ([{ Status := "closed", Priority := "low", LastUpdatedTime := 0 },
                { Status := "new", Priority := "high", LastUpdatedTime := 0 }], none) }
          (fun _ => 5)
          { issueGauge := ⟨[]⟩, breachingSLAGauge := ⟨[]⟩, events := [] }).2.issueGauge.get
          ["high", "new"] = some n) ∧
    (calculateMetrics
      { GetIssues :=
          ([{ Status := "closed", Priority := "low", LastUpdatedTime := 0 },
            { Status := "new", Priority := "high", LastUpdatedTime := 0 }], none) }
      (fun _ => 5)
      { issueGauge := ⟨[]⟩, breachingSLAGauge := ⟨[]⟩,
        events := [] }).2.breachingSLAGauge.get ["low"] = none :=
  ⟨(calculateMetrics_invariants
      [{ Status := "closed", Priority := "low", LastUpdatedTime := 0 },
        { Status := "new", Priority := "high", LastUpdatedTime := 0 }] (fun _ => 5)
      { issueGauge := ⟨[]⟩, breachingSLAGauge := ⟨[]⟩, events := [] }).2.2.2.2.2 1
      { Status := "new", Priority := "high", LastUpdatedTime := 0 } rfl (by decide),
    (calculateMetrics_invariants
      [{ Status := "closed", Priority := "low", LastUpdatedTime := 0 },
        { Status := "new", Priority := "high", LastUpdatedTime := 0 }] (fun _ => 5)
      { issueGauge := ⟨[]⟩, breachingSLAGauge := ⟨[]⟩, events := [] }).2.2.2.2.1 "low"
      (by decide)⟩

/-! ## Facts about start-up -/

theorem logLevelMap_lookup_isSome (logLevel : String) :
    (logLevelMap.lookup logLevel).isSome = true ↔
      logLevel ∈ ["debug", "info", "warn", "warning", "err", "error"] := by
  unfold logLevelMap
  simp only [List.lookup, List.mem_cons, List.mem_singleton, List.not_mem_nil, or_false]
  by_cases h1 : logLevel = "debug"
  · simp [h1]
  by_cases h2 : logLevel = "info"
  · simp [h2]
  by_cases h3 : logLevel = "warn"
  · simp [h3]
  by_cases h4 : logLevel = "warning"
  · simp [h4]
  by_cases h5 : logLevel = "err"
  · simp [h5]
  by_cases h6 : logLevel = "error"
  · simp [h6]
  have e1 : (logLevel == "debug") = false := by simpa using h1
  have e2 : (logLevel == "info") = false := by simpa using h2
  have e3 : (logLevel == "warn") = false := by simpa using h3
  have e4 : (logLevel == "warning") = false := by simpa using h4
  have e5 : (logLevel == "err") = false := by simpa using h5
  have e6 : (logLevel == "error") = false := by simpa using h6
  simp [h1, h2, h3, h4, h5, h6, e1, e2, e3, e4, e5, e6]

/-- C8: `init` accepts exactly the six strings `debug`, `info`, `warn`,
`warning`, `err`, `error`, compared byte for byte; `warn` and `warning`
install the same level, and so do `err` and `error`. For an accepted value
the logger is installed and `main` runs; for every other value the process
exits with status 1 after one error line, with no logger installed and
nothing of `main` run. -/
theorem init_logLevel :
    (∀ (logLevel : String) (s : Exporter),
      (init logLevel s).2 = none ↔
        logLevel ∈ ["debug", "info", "warn", "warning", "err", "error"]) ∧
    (∀ s : Exporter,
      init "debug" s = (s.emit (.setDefaultLogger (-4)), none) ∧
      init "info" s = (s.emit (.setDefaultLogger 0), none) ∧
      init "warn" s = (s.emit (.setDefaultLogger 4), none) ∧
      init "warning" s = (s.emit (.setDefaultLogger 4), none) ∧
      init "err" s = (s.emit (.setDefaultLogger 8), none) ∧
      init "error" s = (s.emit (.setDefaultLogger 8), none)) ∧
    (∀ (J : Type) (logLevel : String) (env : String → Option String)
        (jiraNewClient : String → String → Except String J)
        (fetch : client J → List Issue × Option String) (clock : Nat → Time)
        (s : Exporter),
      logLevel ∈ ["debug", "info", "warn", "warning", "err", "error"] →
      program logLevel env jiraNewClient fetch clock s =
        main env jiraNewClient fetch clock (init logLevel s).1) ∧
    (∀ (J : Type) (logLevel : String) (env : String → Option String)
        (jiraNewClient : String → String → Except String J)
        (fetch : client J → List Issue × Option String) (clock : Nat → Time)
        (s : Exporter),
      logLevel ∉ ["debug", "info", "warn", "warning", "err", "error"] →
      init logLevel s =
        (s.emit (.logError
          "non-valid log level \x27INFO\x27 entered. Available values are debug, info, warning, error"),
          some (.exit 1)) ∧
      program logLevel env jiraNewClient fetch clock s = init logLevel s) := by
  have hinit : ∀ (logLevel : String) (s : Exporter),
      (init logLevel s).2 = none ↔
        logLevel ∈ ["debug", "info", "warn", "warning", "err", "error"] := by
    intro logLevel s
    rw [← logLevelMap_lookup_isSome]
    unfold init
    cases logLevelMap.lookup logLevel <;> simp
  refine ⟨hinit, ?_, ?_, ?_⟩
  · intro s
    exact ⟨rfl, rfl, rfl, rfl, rfl, rfl⟩
  · intro J logLevel env jiraNewClient fetch clock s hmem
    have h := (hinit logLevel s).mpr hmem
    unfold program
    generalize init logLevel s = r at h ⊢
    obtain ⟨s1, o⟩ := r
    simp only at h
    subst h
    rfl
  · intro J logLevel env jiraNewClient fetch clock s hmem
    have hnone : logLevelMap.lookup logLevel = none := by
      cases hl : logLevelMap.lookup logLevel with
      | none => rfl
      | some v => exact absurd ((logLevelMap_lookup_isSome logLevel).mp (by simp [hl])) hmem
    have h1 : init logLevel s =
        (s.emit (.logError
          "non-valid log level \x27INFO\x27 entered. Available values are debug, info, warning, error"),
          some (.exit 1)) := by
      unfold init
      rw [hnone]
    refine ⟨h1, ?_⟩
    unfold program
    rw [h1]

/-- C8 at the flag value `Debug`, which differs from an accepted value only in
case: the process exits with status 1. -/
theorem init_logLevel_witness :
    "Debug" ∉ ["debug", "info", "warn", "warning", "err", "error"] ∧
    program "Debug" (fun _ => some "token") (fun _ _ => Except.ok ())
        (fun _ => ([], none)) (fun _ => 0)
        { issueGauge := ⟨[]⟩, breachingSLAGauge := ⟨[]⟩, events := [] } =
      ({ issueGauge := ⟨[]⟩, breachingSLAGauge := ⟨[]⟩,
         events := [.logError
          "non-valid log level \x27INFO\x27 entered. Available values are debug, info, warning, error"] },
        some (.exit 1)) :=
  ⟨by decide,
    ((init_logLevel.2.2.2 Unit "Debug" (fun _ => some "token") (fun _ _ => Except.ok ())
      (fun _ => ([], none)) (fun _ => 0)
      { issueGauge := ⟨[]⟩, breachingSLAGauge := ⟨[]⟩, events := [] } (by decide)).2.trans
    (init_logLevel.2.2.2 Unit "Debug" (fun _ => some "token") (fun _ _ => Except.ok ())
      (fun _ => ([], none)) (fun _ => 0)
      { issueGauge := ⟨[]⟩, breachingSLAGauge := ⟨[]⟩, events := [] } (by decide)).1)⟩

/-- Outcome of `NewClient` when the token variable is unset or empty. -/
theorem NewClient_no_token {J : Type} (env : String → Option String)
    (jiraNewClient : String → String → Except String J) (jiraURL : String)
    (hurl : jiraURL ≠ "")
    (htoken : env "JIRA_API_TOKEN" = none ∨ env "JIRA_API_TOKEN" = some "") :
    NewClient env jiraNewClient jiraURL = (none, some "JIRA token is not defined.") := by
  unfold NewClient
  rcases htoken with h | h <;> simp [hurl, Getenv, JIRA_TOKEN_ENV_KEY, h]

/-- C9: `NewClient` returns an error and no client when the URL is empty or
when the variable `JIRA_API_TOKEN` is unset or empty. In `main` an error of
`NewClient` is printed and the process stops by panic with nothing else
done: no collector registered, no pass of `calculateMetrics`, no listener.
When `NewClient` succeeds, `main` registers the collectors and reaches the
listener. -/
theorem NewClient_missing_config :
    (∀ (J : Type) (env : String → Option String)
        (jiraNewClient : String → String → Except String J) (jiraURL : String),
      (jiraURL = "" ∨ env "JIRA_API_TOKEN" = none ∨ env "JIRA_API_TOKEN" = some "") →
      (NewClient env jiraNewClient jiraURL).1 = none ∧
      ∃ err : String, (NewClient env jiraNewClient jiraURL).2 = some err) ∧
    (∀ (J : Type) (env : String → Option String)
        (jiraNewClient : String → String → Except String J)
        (fetch : client J → List Issue × Option String) (clock : Nat → Time)
        (s : Exporter) (err : String),
      (NewClient env jiraNewClient JIRA_BASE_URL).2 = some err →
      main env jiraNewClient fetch clock s =
        (s.emit (.println err), some (.panicked err))) ∧
    (∀ (J : Type) (env : String → Option String)
        (jiraNewClient : String → String → Except String J)
        (fetch : client J → List Issue × Option String) (clock : Nat → Time)
        (s : Exporter),
      (env "JIRA_API_TOKEN" = none ∨ env "JIRA_API_TOKEN" = some "") →
      main env jiraNewClient fetch clock s =
        ({ s with events := s.events ++ [.println "JIRA token is not defined."] },
          some (.panicked "JIRA token is not defined."))) ∧
    (∀ (J : Type) (env : String → Option String)
        (jiraNewClient : String → String → Except String J)
        (fetch : client J → List Issue × Option String) (clock : Nat → Time)
        (s : Exporter) (c : client J),
      NewClient env jiraNewClient JIRA_BASE_URL = (some c, none) →
      (main env jiraNewClient fetch clock s).2 = none ∧
      Event.mustRegister "ohss_issues" ∈ (main env jiraNewClient fetch clock s).1.events ∧
      Event.mustRegister "ohss_issues_breaching_sla" ∈
        (main env jiraNewClient fetch clock s).1.events ∧
      Event.logDebug "Querying JIRA for OHSS issues" ∈
        (main env jiraNewClient fetch clock s).1.events ∧
      Event.listenAndServe ":8000" ∈ (main env jiraNewClient fetch clock s).1.events) := by
  have hmain : ∀ (J : Type) (env : String → Option String)
      (jiraNewClient : String → String → Except String J)
      (fetch : client J → List Issue × Option String) (clock : Nat → Time)
      (s : Exporter) (err : String),
      (NewClient env jiraNewClient JIRA_BASE_URL).2 = some err →
      main env jiraNewClient fetch clock s =
        (s.emit (.println err), some (.panicked err)) := by
    intro J env jiraNewClient fetch clock s err herr
    unfold main
    generalize NewClient env jiraNewClient JIRA_BASE_URL = r at herr ⊢
    obtain ⟨c, e⟩ := r
    simp only at herr
    subst herr
    cases c <;> rfl
  refine ⟨?_, hmain, ?_, ?_⟩
  · intro J env jiraNewClient jiraURL h
    by_cases hurl : jiraURL = ""
    · subst hurl
      exact ⟨rfl, _, rfl⟩
    · have htoken := h.resolve_left hurl
      rw [NewClient_no_token env jiraNewClient jiraURL hurl htoken]
      exact ⟨rfl, _, rfl⟩
  · intro J env jiraNewClient fetch clock s htoken
    have hurl : JIRA_BASE_URL ≠ "" := by decide
    have h := NewClient_no_token env jiraNewClient JIRA_BASE_URL hurl htoken
    exact hmain J env jiraNewClient fetch clock s _ (by rw [h])
  · intro J env jiraNewClient fetch clock s c hc
    unfold main
    rw [hc]
    simp only
    have hreg : ∀ e ∈ (registerMetrics s).events,
        e ∈ (calculateMetrics { GetIssues := fetch c } clock (registerMetrics s)).2.events := by
      intro e he
      unfold calculateMetrics
      rcases fetch c with ⟨L, _ | err⟩
      · simp [Exporter.emit, rangeLoop_events, he]
      · simp [Exporter.emit, he]
    have hquery : Event.logDebug "Querying JIRA for OHSS issues" ∈
        (calculateMetrics { GetIssues := fetch c } clock (registerMetrics s)).2.events := by
      unfold calculateMetrics
      rcases fetch c with ⟨L, _ | err⟩
      · simp [Exporter.emit, rangeLoop_events]
      · simp [Exporter.emit]
    refine ⟨trivial, ?_, ?_, ?_, ?_⟩
    · simp only [Exporter.emit, List.mem_append]
      exact Or.inl (Or.inl (Or.inl (hreg _ (by simp [registerMetrics, Exporter.emit]))))
    · simp only [Exporter.emit, List.mem_append]
      exact Or.inl (Or.inl (Or.inl (hreg _ (by simp [registerMetrics, Exporter.emit]))))
    · simp only [Exporter.emit, List.mem_append]
      exact Or.inl (Or.inl (Or.inl hquery))
    · simp [Exporter.emit]

/-- C9 at a process whose environment holds no variable. -/
theorem NewClient_missing_config_witness :
    main (fun _ => none) (fun _ _ => Except.ok ()) (fun _ => ([], none)) (fun _ => 0)
        { issueGauge := ⟨[]⟩, breachingSLAGauge := ⟨[]⟩, events := [] } =
      ({ issueGauge := ⟨[]⟩, breachingSLAGauge := ⟨[]⟩,
         events := [.println "JIRA token is not defined."] },
        some (.panicked "JIRA token is not defined.")) :=
  NewClient_missing_config.2.2.1 Unit (fun _ => none) (fun _ _ => Except.ok ())
    (fun _ => ([], none)) (fun _ => 0)
    { issueGauge := ⟨[]⟩, breachingSLAGauge := ⟨[]⟩, events := [] } (Or.inl rfl)

end JiraExporter
